import Mathlib

/-!
Verification development for the devops-ai-poc prediction service.

The Rust source operates on IEEE-754 `f64` values. We embed `f64` as a
tagged type `F64`: a finite value carrying an exact rational, positive and
negative infinity, and NaN. Finite arithmetic is exact rational arithmetic
with overflow to the signed infinity when the magnitude of a result exceeds
the largest finite double, `(2^53 - 1) * 2^971`; the special values
propagate as in IEEE-754. This captures validation, the special-value
propagation and the overflow behaviour of the code while idealising away
rounding of in-range results.
-/

/-- Largest finite `f64` value, `(2^53 - 1) * 2^971 ≈ 1.7976931348623157e308`. -/
def MAXF : ℚ := (2 ^ 53 - 1) * 2 ^ 971

/-- Embedding of `f64`: an exact finite rational, the two infinities, or NaN. -/
inductive F64 where
  | fin (q : ℚ)
  | inf
  | ninf
  | nan
deriving DecidableEq, Repr

/-- Round an exact rational result into `F64`: overflow to the signed infinity
when the magnitude exceeds the largest finite double. -/
def F64.ofRat (q : ℚ) : F64 :=
  if q > MAXF then .inf else if q < -MAXF then .ninf else .fin q

/-- `f64::is_finite`: true exactly on finite values. -/
def F64.isFinite : F64 → Bool
  | .fin _ => true
  | _ => false

/-- Whether a finite value is actually representable in `f64` range (used to
state that an input really is a finite double). -/
def F64.inRange : F64 → Bool
  | .fin q => decide (|q| ≤ MAXF)
  | _ => false

/-- `f64` addition on the embedding. -/
def F64.add : F64 → F64 → F64
  | .nan, _ => .nan
  | _, .nan => .nan
  | .inf, .ninf => .nan
  | .ninf, .inf => .nan
  | .inf, _ => .inf
  | _, .inf => .inf
  | .ninf, _ => .ninf
  | _, .ninf => .ninf
  | .fin a, .fin b => F64.ofRat (a + b)

/-- `f64` negation on the embedding. -/
def F64.neg : F64 → F64
  | .fin a => .fin (-a)
  | .inf => .ninf
  | .ninf => .inf
  | .nan => .nan

/-- `f64` subtraction on the embedding. -/
def F64.sub (a b : F64) : F64 := a.add b.neg

/-- `f64` multiplication on the embedding. -/
def F64.mul : F64 → F64 → F64
  | .nan, _ => .nan
  | _, .nan => .nan
  | .inf, .inf => .inf
  | .inf, .ninf => .ninf
  | .ninf, .inf => .ninf
  | .ninf, .ninf => .inf
  | .inf, .fin b => if b > 0 then .inf else if b < 0 then .ninf else .nan
  | .fin a, .inf => if a > 0 then .inf else if a < 0 then .ninf else .nan
  | .ninf, .fin b => if b > 0 then .ninf else if b < 0 then .inf else .nan
  | .fin a, .ninf => if a > 0 then .ninf else if a < 0 then .inf else .nan
  | .fin a, .fin b => F64.ofRat (a * b)

/-- `f64` division on the embedding. -/
def F64.div : F64 → F64 → F64
  | .nan, _ => .nan
  | _, .nan => .nan
  | .inf, .inf => .nan
  | .inf, .ninf => .nan
  | .ninf, .inf => .nan
  | .ninf, .ninf => .nan
  | .inf, .fin b => if b ≥ 0 then .inf else .ninf
  | .ninf, .fin b => if b ≥ 0 then .ninf else .inf
  | .fin _, .inf => .fin 0
  | .fin _, .ninf => .fin 0
  | .fin a, .fin b =>
    if b = 0 then (if a = 0 then .nan else if a > 0 then .inf else .ninf)
    else F64.ofRat (a / b)

/-- `f64::abs` on the embedding. -/
def F64.abs : F64 → F64
  | .fin a => .fin |a|
  | .inf => .inf
  | .ninf => .inf
  | .nan => .nan

/-- Total order test used by `f64::min` on non-NaN values
(`ninf < fin _ < inf`). -/
def F64.le : F64 → F64 → Bool
  | .nan, _ => false
  | _, .nan => false
  | .ninf, _ => true
  | .inf, .inf => true
  | .inf, _ => false
  | .fin _, .inf => true
  | .fin _, .ninf => false
  | .fin a, .fin b => decide (a ≤ b)

/-- `f64::min`: if one argument is NaN the other is returned, otherwise the
numerically smaller argument. -/
def F64.min (a b : F64) : F64 :=
  if a = .nan then b
  else if b = .nan then a
  else if a.le b then a else b

/-- `ndarray` dot product of two vectors: sum of pairwise products. -/
def F64.dot (xs ys : List F64) : F64 :=
  (List.zipWith F64.mul xs ys).foldl F64.add (F64.fin 0)

/-- `EXPECTED_FEATURES` constant from `src/models/ml_model.rs`. -/
def EXPECTED_FEATURES : Nat := 10

/-- `MODEL_VERSION` constant from `src/models/ml_model.rs`. -/
def MODEL_VERSION : String := "v1.0.0"

/-- Structured rendering of the two validation errors raised by
`validate_features` (the Rust code formats them as `anyhow` messages). -/
inductive ModelError where
  | wrongFeatureCount (expected actual : Nat)
  | nonFiniteValue (index : Nat) (value : F64)
deriving DecidableEq, Repr

/-- `PredictionResponse` from `src/models/ml_model.rs`. -/
structure PredictionResponse where
  prediction : F64
  confidence : F64
  model_version : String
deriving DecidableEq, Repr

/-- `LinearRegressionModel` from `src/models/ml_model.rs`. -/
structure LinearRegressionModel where
  weights : List F64
  bias : F64

/-- `LinearRegressionModel::new`: the fixed weight vector and bias. -/
def LinearRegressionModel.new : LinearRegressionModel :=
  { weights := [F64.fin (15/100), F64.fin (-23/100), F64.fin (87/100),
      F64.fin (-45/100), F64.fin (67/100), F64.fin (34/100),
      F64.fin (-12/100), F64.fin (89/100), F64.fin (-56/100),
      F64.fin (78/100)],
    bias := F64.fin (5/2) }

/-- The enumerate-and-scan loop of `validate_features`: first index (counting
from `i`) holding a non-finite value, with that value. -/
def findNonFinite (i : Nat) : List F64 → Option (Nat × F64)
  | [] => none
  | x :: xs => if x.isFinite then findNonFinite (i + 1) xs else some (i, x)

/-- `LinearRegressionModel::validate_features`: length check first, then scan
for the first non-finite element. -/
def LinearRegressionModel.validate_features (_m : LinearRegressionModel)
    (features : List F64) : Except ModelError Unit :=
  if features.length ≠ EXPECTED_FEATURES then
    .error (.wrongFeatureCount EXPECTED_FEATURES features.length)
  else
    match findNonFinite 0 features with
    | some (i, v) => .error (.nonFiniteValue i v)
    | none => .ok ()

/-- `LinearRegressionModel::calculate_confidence`:
`0.85 + (1 - min(|prediction - bias| / 50, 1)) * 0.15` in `f64` arithmetic. -/
def LinearRegressionModel.calculate_confidence (m : LinearRegressionModel)
    (prediction : F64) : F64 :=
  let distance_from_bias := (prediction.sub m.bias).abs
  let max_distance : F64 := F64.fin 50
  let normalized_distance := (distance_from_bias.div max_distance).min (F64.fin 1)
  (F64.fin (85/100)).add (((F64.fin 1).sub normalized_distance).mul (F64.fin (15/100)))

/-- `LinearRegressionModel::predict`: validate, dot product plus bias,
confidence, fixed model version. -/
def LinearRegressionModel.predict (m : LinearRegressionModel)
    (features : List F64) : Except ModelError PredictionResponse :=
  match m.validate_features features with
  | .error e => .error e
  | .ok _ =>
    let prediction := (F64.dot m.weights features).add m.bias
    let confidence := m.calculate_confidence prediction
    .ok { prediction := prediction, confidence := confidence,
          model_version := MODEL_VERSION }

/-- `get_model`: the once-initialised global instance; construction is
deterministic, so it is the constant `LinearRegressionModel.new`. -/
def get_model : LinearRegressionModel := LinearRegressionModel.new

instance {ε α : Type} [DecidableEq ε] [DecidableEq α] : DecidableEq (Except ε α) :=
  fun x y =>
    match x, y with
    | .ok a, .ok b =>
      if h : a = b then .isTrue (by rw [h]) else .isFalse (by simp [h])
    | .error a, .error b =>
      if h : a = b then .isTrue (by rw [h]) else .isFalse (by simp [h])
    | .ok _, .error _ => .isFalse (by simp)
    | .error _, .ok _ => .isFalse (by simp)

/-! ### Basic evaluation lemmas for the `F64` operations -/

theorem F64.ofRat_eq_fin {q : ℚ} (h1 : q ≤ MAXF) (h2 : -MAXF ≤ q) :
    F64.ofRat q = .fin q := by
  simp only [F64.ofRat, if_neg (not_lt.mpr h1), if_neg (not_lt.mpr h2)]

theorem F64.add_fin (a b : ℚ) : (F64.fin a).add (F64.fin b) = F64.ofRat (a + b) := rfl

theorem F64.mul_fin (a b : ℚ) : (F64.fin a).mul (F64.fin b) = F64.ofRat (a * b) := rfl

theorem F64.sub_fin (a b : ℚ) : (F64.fin a).sub (F64.fin b) = F64.ofRat (a - b) := by
  simp only [F64.sub, F64.neg, F64.add_fin, sub_eq_add_neg]

theorem F64.abs_fin (a : ℚ) : (F64.fin a).abs = F64.fin |a| := rfl

theorem F64.div_fin (a b : ℚ) (hb : 0 < b) :
    (F64.fin a).div (F64.fin b) = F64.ofRat (a / b) := by
  simp only [F64.div, if_neg hb.ne.symm]

theorem f64_min_fin (a b : ℚ) : (F64.fin a).min (F64.fin b) = F64.fin (min a b) := by
  simp only [F64.min, F64.le, reduceCtorEq, if_false]
  rcases le_or_lt a b with h | h
  · simp [h, min_eq_left h]
  · simp [not_le.mpr h, min_eq_right h.le]

theorem MAXF_pos : 0 < MAXF := by norm_num [MAXF]

theorem fifty_le_MAXF : (50 : ℚ) ≤ MAXF := by norm_num [MAXF]

/-- Closed form of `calculate_confidence` on a finite prediction: the exact
rational `0.85 + (1 - min(|p - 2.5| / 50, 1)) * 0.15`, always finite. -/
theorem calculate_confidence_fin (p : ℚ) :
    get_model.calculate_confidence (F64.fin p) =
      F64.fin (85/100 + (1 - min (|p - 5/2| / 50) 1) * (15/100)) := by
  have hM := MAXF_pos
  have h50 := fifty_le_MAXF
  unfold LinearRegressionModel.calculate_confidence
  simp only [get_model, LinearRegressionModel.new, F64.sub_fin]
  rcases le_or_lt (p - 5/2) MAXF with hup | hup
  · rcases le_or_lt (-MAXF) (p - 5/2) with hlo | hlo
    · -- in-range distance: everything stays finite
      rw [F64.ofRat_eq_fin hup hlo, F64.abs_fin,
        F64.div_fin _ _ (by norm_num), F64.ofRat_eq_fin
          (by rw [div_le_iff (by norm_num : (0:ℚ) < 50)]
              calc |p - 5/2| ≤ MAXF := abs_le.mpr ⟨hlo, hup⟩
                _ ≤ MAXF * 50 := le_mul_of_one_le_right hM.le (by norm_num))
          (le_trans (by linarith) (div_nonneg (abs_nonneg _) (by norm_num))),
        f64_min_fin]
      set m : ℚ := min (|p - 5/2| / 50) 1 with hm
      have hm0 : 0 ≤ m := le_min (div_nonneg (abs_nonneg _) (by norm_num)) (by norm_num)
      have hm1 : m ≤ 1 := min_le_right _ _
      rw [F64.sub_fin, F64.ofRat_eq_fin (by linarith) (by linarith),
        F64.mul_fin, F64.ofRat_eq_fin (by nlinarith) (by nlinarith),
        F64.add_fin, F64.ofRat_eq_fin (by nlinarith) (by nlinarith)]
    · -- distance overflows to -∞ before `abs`
      have habs : (50:ℚ) ≤ |p - 5/2| := by
        rw [abs_of_nonpos (by linarith)]; linarith
      rw [show F64.ofRat (p - 5/2) = .ninf by
            simp [F64.ofRat, hlo, not_lt.mpr (by linarith : p - 5/2 ≤ MAXF)]]
      rw [show (F64.ninf.abs.div (F64.fin 50)).min (F64.fin 1) = F64.fin 1 by
            simp [F64.abs, F64.div, F64.min, F64.le]]
      rw [show min (|p - 5/2| / 50) 1 = 1 from
            min_eq_right ((le_div_iff (by norm_num : (0:ℚ) < 50)).mpr (by linarith))]
      rw [F64.sub_fin, sub_self, F64.ofRat_eq_fin (by linarith) (by linarith),
        F64.mul_fin, zero_mul, F64.ofRat_eq_fin (by linarith) (by linarith),
        F64.add_fin, F64.ofRat_eq_fin (by linarith) (by linarith)]
  · -- distance overflows to +∞
    have habs : (50:ℚ) ≤ |p - 5/2| := by
      rw [abs_of_nonneg (by linarith)]; linarith
    rw [show F64.ofRat (p - 5/2) = .inf by simp [F64.ofRat, hup]]
    rw [show (F64.inf.abs.div (F64.fin 50)).min (F64.fin 1) = F64.fin 1 by
          simp [F64.abs, F64.div, F64.min, F64.le]]
    rw [show min (|p - 5/2| / 50) 1 = 1 from
          min_eq_right ((le_div_iff (by norm_num : (0:ℚ) < 50)).mpr (by linarith))]
    rw [F64.sub_fin, sub_self, F64.ofRat_eq_fin (by linarith) (by linarith),
      F64.mul_fin, zero_mul, F64.ofRat_eq_fin (by linarith) (by linarith),
      F64.add_fin, F64.ofRat_eq_fin (by linarith) (by linarith)]

/-- On a non-finite prediction the confidence saturates at exactly 0.85:
`min` returns the other argument when one side is NaN, and ∞/50 exceeds 1. -/
theorem calculate_confidence_nonfinite (p : F64) (hp : p.isFinite = false) :
    get_model.calculate_confidence p = F64.fin (85/100) := by
  have hM := MAXF_pos
  have h0 : F64.ofRat 0 = F64.fin 0 := F64.ofRat_eq_fin hM.le (by linarith)
  have h85 : F64.ofRat (85/100) = F64.fin (85/100) := by
    refine F64.ofRat_eq_fin ?_ ?_ <;> linarith [fifty_le_MAXF]
  have key : ∀ d : F64, (d = F64.inf ∨ d = F64.nan) →
      (((F64.fin (85/100)).add
        (((F64.fin 1).sub ((d.div (F64.fin 50)).min (F64.fin 1))).mul
          (F64.fin (15/100)))) = F64.fin (85/100)) := by
    rintro d (rfl | rfl)
    · simp only [F64.div, ge_iff_le, show ((0:ℚ) ≤ 50) by norm_num, if_true]
      simp only [F64.min, F64.le, reduceCtorEq, if_false, Bool.false_eq_true]
      rw [F64.sub_fin, sub_self, h0, F64.mul_fin, zero_mul, h0, F64.add_fin,
        add_zero, h85]
    · simp only [F64.min, F64.div, if_true]
      rw [F64.sub_fin, sub_self, h0, F64.mul_fin, zero_mul, h0, F64.add_fin,
        add_zero, h85]
  unfold LinearRegressionModel.calculate_confidence
  cases p with
  | fin q => simp [F64.isFinite] at hp
  | inf =>
    simp only [get_model, LinearRegressionModel.new]
    exact key ((F64.inf.sub (F64.fin (5/2))).abs)
      (by simp [F64.sub, F64.neg, F64.add, F64.abs])
  | ninf =>
    simp only [get_model, LinearRegressionModel.new]
    exact key ((F64.ninf.sub (F64.fin (5/2))).abs)
      (by simp [F64.sub, F64.neg, F64.add, F64.abs])
  | nan =>
    simp only [get_model, LinearRegressionModel.new]
    exact key ((F64.nan.sub (F64.fin (5/2))).abs)
      (by simp [F64.sub, F64.neg, F64.add, F64.abs])

/-! ### Validation and prediction structure lemmas -/

theorem findNonFinite_none (xs : List F64) (hfin : ∀ x ∈ xs, x.isFinite = true) :
    ∀ i, findNonFinite i xs = none := by
  induction xs with
  | nil => intro i; rfl
  | cons x xs ih =>
    intro i
    have hx := hfin x (List.mem_cons_self x xs)
    simp only [findNonFinite, hx, if_true]
    exact ih (fun y hy => hfin y (List.mem_cons_of_mem x hy)) (i + 1)

theorem findNonFinite_first (xs : List F64) (i : Nat) (hi : i < xs.length)
    (hbad : (xs.getD i (F64.fin 0)).isFinite = false)
    (hfirst : ∀ j, j < i → (xs.getD j (F64.fin 0)).isFinite = true) :
    ∀ k, findNonFinite k xs = some (k + i, xs.getD i (F64.fin 0)) := by
  induction xs generalizing i with
  | nil => simp at hi
  | cons x xs ih =>
    intro k
    cases i with
    | zero =>
      simp only [List.getD_cons_zero] at hbad
      simp only [findNonFinite, hbad, Bool.false_eq_true, if_false,
        List.getD_cons_zero, Nat.add_zero]
    | succ i =>
      have hx : x.isFinite = true := by
        have := hfirst 0 (Nat.succ_pos i)
        simpa using this
      simp only [List.getD_cons_succ] at hbad
      simp only [findNonFinite, hx, if_true, List.getD_cons_succ]
      have heq := ih i (by simpa using hi) hbad
        (fun j hj => by
          have := hfirst (j + 1) (Nat.succ_lt_succ hj)
          simpa using this) (k + 1)
      rw [heq, show k + 1 + i = k + (i + 1) from by omega]

theorem validate_ok (m : LinearRegressionModel) (features : List F64)
    (hlen : features.length = 10) (hfin : ∀ x ∈ features, x.isFinite = true) :
    m.validate_features features = .ok () := by
  unfold LinearRegressionModel.validate_features
  simp only [EXPECTED_FEATURES, hlen, ne_eq, not_true_eq_false, if_false,
    findNonFinite_none features hfin 0]

theorem predict_of_valid (m : LinearRegressionModel) (features : List F64)
    (hlen : features.length = 10) (hfin : ∀ x ∈ features, x.isFinite = true) :
    m.predict features =
      .ok { prediction := (F64.dot m.weights features).add m.bias,
            confidence :=
              m.calculate_confidence ((F64.dot m.weights features).add m.bias),
            model_version := "v1.0.0" } := by
  unfold LinearRegressionModel.predict
  rw [validate_ok m features hlen hfin]
  rfl

/-- The rational confidence value always lies in `[0.85, 1]`. -/
theorem confidence_val_bounds (p : ℚ) :
    85/100 ≤ 85/100 + (1 - min (|p - 5/2| / 50) 1) * (15/100) ∧
      85/100 + (1 - min (|p - 5/2| / 50) 1) * (15/100) ≤ 1 := by
  have hm0 : 0 ≤ min (|p - 5/2| / 50) 1 :=
    le_min (div_nonneg (abs_nonneg _) (by norm_num)) (by norm_num)
  have hm1 : min (|p - 5/2| / 50) 1 ≤ 1 := min_le_right _ _
  constructor <;> nlinarith

/-- The confidence of any prediction value is a finite rational in `[0.85, 1]`. -/
theorem confidence_bounds_any (p : F64) :
    ∃ q : ℚ, get_model.calculate_confidence p = F64.fin q ∧
      85/100 ≤ q ∧ q ≤ 1 := by
  cases hp : p.isFinite with
  | true =>
    cases p with
    | fin v =>
      refine ⟨85/100 + (1 - min (|v - 5/2| / 50) 1) * (15/100),
        calculate_confidence_fin v, confidence_val_bounds v⟩
    | inf => simp [F64.isFinite] at hp
    | ninf => simp [F64.isFinite] at hp
    | nan => simp [F64.isFinite] at hp
  | false =>
    exact ⟨85/100, calculate_confidence_nonfinite p hp, by norm_num, by norm_num⟩

/-! ### Metrics registry state, recorder functions, handler, middleware -/

/-- The two metric families touched by `record_ml_prediction` in
`src/metrics/prometheus.rs`: the `ml_predictions_total` counter keyed by
`(model_version, status)` labels, and the set of observations recorded into
the `ml_prediction_confidence` histogram keyed by `model_version`. -/
structure MLMetrics where
  ml_predictions_total : String → String → ℚ
  ml_prediction_confidence : String → Multiset F64

/-- `record_ml_prediction` from `src/metrics/prometheus.rs`: pick the status
label from `success`, increment the counter for `(model_version, status)`,
and on success also observe the confidence in the histogram for
`model_version`. -/
def record_ml_prediction (model_version : String) (confidence : F64)
    (success : Bool) (m : MLMetrics) : MLMetrics :=
  let status := if success then "success" else "error"
  let m1 : MLMetrics :=
    { m with ml_predictions_total := fun v s =>
        if v = model_version ∧ s = status then m.ml_predictions_total v s + 1
        else m.ml_predictions_total v s }
  if success then
    { m1 with ml_prediction_confidence := fun v =>
        if v = model_version then confidence ::ₘ m1.ml_prediction_confidence v
        else m1.ml_prediction_confidence v }
  else m1

/-- The `predict` handler from `src/handlers/predict.rs`: run the model,
record metrics on either outcome (using the fixed fallback version label and
confidence `0.0` on failure), and map failure to HTTP status 400. -/
def predictEndpoint (features : List F64) (m : MLMetrics) :
    Except Nat PredictionResponse × MLMetrics :=
  match get_model.predict features with
  | .ok r => (.ok r, record_ml_prediction r.model_version r.confidence true m)
  | .error _ => (.error 400, record_ml_prediction "v1.0.0" (F64.fin 0) false m)

/-- An HTTP request as seen by the middleware: method and URI path. -/
structure HttpRequest where
  method : String
  path : String

/-- An HTTP response: status code and body. -/
structure HttpResponse where
  status : Nat
  body : String
deriving DecidableEq, Repr

/-- The two metric families touched by `record_http_request`: the
`http_requests_total` counter keyed by `(method, endpoint, status)` and the
observations of the `http_request_duration_seconds` histogram keyed by
`(method, endpoint)`. -/
structure HttpMetrics where
  http_requests_total : String → String → String → ℚ
  http_request_duration_seconds : String → String → Multiset ℚ

/-- `record_http_request` from `src/metrics/prometheus.rs`: format the status
code as a string, increment the request counter, observe the duration. -/
def record_http_request (method endpoint : String) (status : Nat)
    (duration : ℚ) (m : HttpMetrics) : HttpMetrics :=
  { http_requests_total := fun a b c =>
      if a = method ∧ b = endpoint ∧ c = toString status then
        m.http_requests_total a b c + 1
      else m.http_requests_total a b c,
    http_request_duration_seconds := fun a b =>
      if a = method ∧ b = endpoint then
        duration ::ₘ m.http_request_duration_seconds a b
      else m.http_request_duration_seconds a b }

/-- `metrics_middleware` from `src/metrics/middleware.rs`: run the wrapped
handler, then record the request with the handler's status and the elapsed
wall-clock duration (passed here as an abstract parameter), and return the
handler's response untouched. -/
def metrics_middleware (next : HttpRequest → HttpResponse)
    (request : HttpRequest) (duration : ℚ) (m : HttpMetrics) :
    HttpResponse × HttpMetrics :=
  let response := next request
  (response, record_http_request request.method request.path response.status
    duration m)

/-! ### Spec-side definitions (for refinement-style claims) -/

/-- Modelled from the spec: the weight constants listed in §8. -/
def specWeights : List ℚ :=
  [15/100, -23/100, 87/100, -45/100, 67/100, 34/100, -12/100, 89/100,
   -56/100, 78/100]

/-- Modelled from the spec: the bias constant. -/
def specBias : ℚ := 5/2

/-- Modelled from the spec: the running sum of the first `n` terms of
`Σ weights[i] * features[i]`, accumulated in index order in `f64`
arithmetic. -/
def specTermSum (features : List F64) : Nat → F64
  | 0 => F64.fin 0
  | n + 1 => (specTermSum features n).add
      ((F64.fin (specWeights.getD n 0)).mul (features.getD n (F64.fin 0)))

/-- Modelled from the spec: `prediction = Σ(weights[i] * features[i]) + bias`
over the ten features. -/
def specPrediction (features : List F64) : F64 :=
  (specTermSum features 10).add (F64.fin specBias)

/-! ### Concrete inputs used in witnesses and scenarios -/

/-- The concrete scenario input `[1,2,3,4,5,6,7,8,9,10]` from the spec. -/
def oneToTenF : List F64 :=
  [F64.fin 1, F64.fin 2, F64.fin 3, F64.fin 4, F64.fin 5, F64.fin 6,
   F64.fin 7, F64.fin 8, F64.fin 9, F64.fin 10]

/-- A length-10 vector of finite doubles whose dot product with the model
weights overflows `f64` (three large entries against positive weights). -/
def overflowFeatures : List F64 :=
  [F64.fin (16 * 10 ^ 307), F64.fin 0, F64.fin (16 * 10 ^ 307), F64.fin 0,
   F64.fin (16 * 10 ^ 307), F64.fin 0, F64.fin 0, F64.fin 0, F64.fin 0,
   F64.fin 0]

/-- An all-zero initial state for the ML metrics. -/
def initMLMetrics : MLMetrics :=
  { ml_predictions_total := fun _ _ => 0,
    ml_prediction_confidence := fun _ => 0 }

/-- An all-zero initial state for the HTTP metrics. -/
def initHttpMetrics : HttpMetrics :=
  { http_requests_total := fun _ _ _ => 0,
    http_request_duration_seconds := fun _ _ => 0 }

/-! ### More shared helper lemmas -/

/-- Inversion: a successful `predict` returns exactly the dot-product
prediction, its confidence, and the fixed model version. -/
theorem predict_ok_shape (features : List F64) (r : PredictionResponse)
    (h : get_model.predict features = .ok r) :
    r = { prediction := (F64.dot get_model.weights features).add get_model.bias,
          confidence := get_model.calculate_confidence
            ((F64.dot get_model.weights features).add get_model.bias),
          model_version := "v1.0.0" } := by
  unfold LinearRegressionModel.predict at h
  cases hv : get_model.validate_features features with
  | error e => rw [hv] at h; simp at h
  | ok u =>
    rw [hv] at h
    simp only [Except.ok.injEq] at h
    exact h.symm

/-- A wrong-length vector always yields the wrong-feature-count error. -/
theorem predict_wrong_count (m : LinearRegressionModel) (features : List F64)
    (h : features.length ≠ 10) :
    m.predict features = .error (.wrongFeatureCount 10 features.length) := by
  unfold LinearRegressionModel.predict LinearRegressionModel.validate_features
  simp only [EXPECTED_FEATURES, ne_eq, h, not_false_eq_true, if_true]

/-- Any length-10 list of `F64` values is a literal ten-element list. -/
theorem length_ten_destruct (features : List F64) (hlen : features.length = 10) :
    ∃ x0 x1 x2 x3 x4 x5 x6 x7 x8 x9 : F64,
      features = [x0, x1, x2, x3, x4, x5, x6, x7, x8, x9] := by
  rcases features with _ | ⟨x0, _ | ⟨x1, _ | ⟨x2, _ | ⟨x3, _ | ⟨x4, _ | ⟨x5,
    _ | ⟨x6, _ | ⟨x7, _ | ⟨x8, _ | ⟨x9, _ | ⟨x10, tl⟩⟩⟩⟩⟩⟩⟩⟩⟩⟩⟩ <;>
    first
    | exact ⟨x0, x1, x2, x3, x4, x5, x6, x7, x8, x9, rfl⟩
    | simp at hlen

/-- The code's dot product over the model weights coincides with the spec's
index-ordered sum `Σ weights[i] * features[i]` on ten features. -/
theorem dot_eq_specTermSum (features : List F64) (hlen : features.length = 10) :
    F64.dot get_model.weights features = specTermSum features 10 := by
  obtain ⟨x0, x1, x2, x3, x4, x5, x6, x7, x8, x9, rfl⟩ :=
    length_ten_destruct features hlen
  rfl

/-- Concrete evaluation: the model's dot product on `[1,…,10]` is `14.93`. -/
theorem dot_oneToTen : F64.dot get_model.weights oneToTenF = F64.fin (1493/100) := by
  norm_num [get_model, LinearRegressionModel.new, oneToTenF, F64.dot,
    List.zipWith, List.foldl, F64.mul, F64.add, F64.ofRat, MAXF]

/-- Concrete evaluation of `predict` on the spec's scenario `[1,…,10]`. -/
theorem predict_oneToTen_eval :
    get_model.predict oneToTenF =
      .ok { prediction := F64.fin (1743/100),
            confidence := F64.fin (95521/100000),
            model_version := "v1.0.0" } := by
  rw [predict_of_valid get_model oneToTenF (by decide) (by decide), dot_oneToTen]
  have hpred : (F64.fin (1493/100 : ℚ)).add get_model.bias = F64.fin (1743/100) := by
    show (F64.fin (1493/100 : ℚ)).add (F64.fin (5/2)) = F64.fin (1743/100)
    rw [F64.add_fin, show (1493/100 : ℚ) + 5/2 = 1743/100 by norm_num]
    exact F64.ofRat_eq_fin (by norm_num [MAXF]) (by norm_num [MAXF])
  rw [hpred, calculate_confidence_fin]
  norm_num
  rw [show |(1493:ℚ)/100| = 1493/100 from abs_of_nonneg (by norm_num),
    show ((1493:ℚ)/100/50) ⊓ 1 = 1493/5000 by rw [min_eq_left] <;> norm_num]
  norm_num

/-! ### Claim theorems -/

/-- C1: for every feature vector of length exactly 10 all of whose elements
are finite, `predict` returns a success result whose confidence lies in the
closed interval `[0.85, 1.0]`. -/
theorem C1_predict_valid_confidence (features : List F64)
    (hlen : features.length = 10)
    (hfin : ∀ x ∈ features, x.isFinite = true) :
    ∃ r : PredictionResponse, get_model.predict features = .ok r ∧
      ∃ q : ℚ, r.confidence = F64.fin q ∧ 85/100 ≤ q ∧ q ≤ 1 := by
  rw [predict_of_valid get_model features hlen hfin]
  obtain ⟨q, hq, h1, h2⟩ := confidence_bounds_any
    ((F64.dot get_model.weights features).add get_model.bias)
  exact ⟨_, rfl, q, hq, h1, h2⟩

/-- Witness for C1 at the concrete valid input `[1,…,10]`. -/
theorem C1_witness :
    oneToTenF.length = 10 ∧
    (∃ r : PredictionResponse, get_model.predict oneToTenF = .ok r ∧
      ∃ q : ℚ, r.confidence = F64.fin q ∧ 85/100 ≤ q ∧ q ≤ 1) :=
  ⟨by decide, C1_predict_valid_confidence oneToTenF (by decide) (by decide)⟩

/-- C2: on every valid input the returned prediction equals the spec's
`Σ(weights[i] * features[i]) + bias` with the fixed weight constants and bias
2.5; in particular on `[1,…,10]` the prediction is exactly `17.43`. -/
theorem C2_prediction_formula :
    (∀ features : List F64, features.length = 10 →
      (∀ x ∈ features, x.isFinite = true) →
      ∃ r : PredictionResponse, get_model.predict features = .ok r ∧
        r.prediction = specPrediction features) ∧
    get_model.predict oneToTenF =
      .ok { prediction := F64.fin (1743/100),
            confidence := F64.fin (95521/100000),
            model_version := "v1.0.0" } := by
  constructor
  · intro features hlen hfin
    rw [predict_of_valid get_model features hlen hfin]
    refine ⟨_, rfl, ?_⟩
    show (F64.dot get_model.weights features).add get_model.bias =
      specPrediction features
    rw [dot_eq_specTermSum features hlen]
    rfl
  · exact predict_oneToTen_eval

/-- Witness for C2's universally quantified part at `[1,…,10]`. -/
theorem C2_witness :
    ∃ r : PredictionResponse, get_model.predict oneToTenF = .ok r ∧
      r.prediction = specPrediction oneToTenF :=
  C2_prediction_formula.1 oneToTenF (by decide) (by decide)

/-- C3: any successful prediction's confidence is computed by
`0.85 + (1 - min(|prediction - bias| / 50, 1)) * 0.15`; it is 1 at the bias,
exactly 0.85 at distance ≥ 50, and non-increasing in the distance. -/
theorem C3_confidence_formula :
    (∀ features : List F64, ∀ r : PredictionResponse,
      get_model.predict features = .ok r →
      r.confidence = get_model.calculate_confidence r.prediction) ∧
    (∀ p : ℚ, get_model.calculate_confidence (F64.fin p) =
      F64.fin (85/100 + (1 - min (|p - 5/2| / 50) 1) * (15/100))) ∧
    get_model.calculate_confidence (F64.fin (5/2)) = F64.fin 1 ∧
    (∀ p : ℚ, 50 ≤ |p - 5/2| →
      get_model.calculate_confidence (F64.fin p) = F64.fin (85/100)) ∧
    (∀ p q a b : ℚ, |p - 5/2| ≤ |q - 5/2| →
      get_model.calculate_confidence (F64.fin p) = F64.fin a →
      get_model.calculate_confidence (F64.fin q) = F64.fin b →
      b ≤ a) := by
  refine ⟨?_, calculate_confidence_fin, ?_, ?_, ?_⟩
  · intro features r h
    rw [predict_ok_shape features r h]
  · rw [calculate_confidence_fin]
    norm_num
  · intro p hp
    rw [calculate_confidence_fin,
      min_eq_right ((le_div_iff₀ (by norm_num : (0:ℚ) < 50)).mpr (by linarith))]
    norm_num
  · intro p q a b hpq hpa hqb
    rw [calculate_confidence_fin] at hpa hqb
    have ha : a = 85/100 + (1 - min (|p - 5/2| / 50) 1) * (15/100) := by
      injection hpa.symm
    have hb : b = 85/100 + (1 - min (|q - 5/2| / 50) 1) * (15/100) := by
      injection hqb.symm
    have hmono : min (|p - 5/2| / 50) 1 ≤ min (|q - 5/2| / 50) 1 :=
      min_le_min (by linarith) le_rfl
    rw [ha, hb]
    nlinarith

/-- Witness for C3: confidence at prediction 60 (distance 57.5 ≥ 50) is
exactly 0.85. -/
theorem C3_witness :
    get_model.calculate_confidence (F64.fin 60) = F64.fin (85/100) :=
  C3_confidence_formula.2.2.2.1 60 (by rw [abs_of_nonneg] <;> norm_num)

/-- C4: every feature vector whose length is not 10 fails with the
wrong-feature-count error reporting expected 10 and the actual length. -/
theorem C4_wrong_feature_count (features : List F64)
    (h : features.length ≠ 10) :
    get_model.predict features =
      .error (.wrongFeatureCount 10 features.length) :=
  predict_wrong_count get_model features h

/-- Witness for C4 at the empty vector. -/
theorem C4_witness :
    ([] : List F64).length ≠ 10 ∧
    get_model.predict [] = .error (.wrongFeatureCount 10 ([] : List F64).length) :=
  ⟨by decide, C4_wrong_feature_count [] (by decide)⟩

/-- C5: a length-10 vector containing a non-finite element fails with the
non-finite-value error reporting the first offending index and its value;
and the non-finite check never fires on a wrong-length vector (the length
check comes first). -/
theorem C5_non_finite_value (features : List F64) (i : Nat)
    (hlen : features.length = 10) (hi : i < features.length)
    (hbad : (features.getD i (F64.fin 0)).isFinite = false)
    (hfirst : ∀ j, j < i → (features.getD j (F64.fin 0)).isFinite = true) :
    get_model.predict features =
      .error (.nonFiniteValue i (features.getD i (F64.fin 0))) ∧
    ∀ gs : List F64, gs.length ≠ 10 → ∀ k : Nat, ∀ v : F64,
      get_model.predict gs ≠ .error (.nonFiniteValue k v) := by
  constructor
  · unfold LinearRegressionModel.predict LinearRegressionModel.validate_features
    simp only [EXPECTED_FEATURES, hlen, ne_eq, not_true_eq_false, if_false]
    rw [show findNonFinite 0 features =
        some (0 + i, features.getD i (F64.fin 0)) from
      findNonFinite_first features i hi hbad hfirst 0, Nat.zero_add]
  · intro gs hgs k v
    rw [predict_wrong_count get_model gs hgs]
    simp

/-- Witness for C5: a NaN at index 3 of a length-10 vector is reported with
its index. -/
theorem C5_witness :
    get_model.predict
        [F64.fin 1, F64.fin 2, F64.fin 3, F64.nan, F64.fin 5, F64.fin 6,
         F64.fin 7, F64.fin 8, F64.fin 9, F64.fin 10] =
      .error (.nonFiniteValue 3
        ([F64.fin 1, F64.fin 2, F64.fin 3, F64.nan, F64.fin 5, F64.fin 6,
          F64.fin 7, F64.fin 8, F64.fin 9, F64.fin 10].getD 3 (F64.fin 0))) :=
  (C5_non_finite_value
    [F64.fin 1, F64.fin 2, F64.fin 3, F64.nan, F64.fin 5, F64.fin 6,
     F64.fin 7, F64.fin 8, F64.fin 9, F64.fin 10] 3
    (by decide) (by decide) (by decide) (by decide)).1

/-- C6: `predict` is deterministic — the same vector against the same model
always produces the same result, and a second call after the first one's
metrics recording still returns the identical response (no hidden state). -/
theorem C6_deterministic (features : List F64) :
    get_model.predict features = get_model.predict features ∧
    ∀ m : MLMetrics,
      (predictEndpoint features ((predictEndpoint features m).2)).1 =
        (predictEndpoint features m).1 := by
  refine ⟨rfl, fun m => ?_⟩
  unfold predictEndpoint
  cases get_model.predict features <;> rfl

/-- C10: a length-10 all-finite vector whose dot product overflows `f64`
yields a success result with a non-finite prediction and confidence exactly
0.85. -/
theorem C10_overflow_success :
    overflowFeatures.length = 10 ∧
    (∀ x ∈ overflowFeatures, x.isFinite = true ∧ x.inRange = true) ∧
    get_model.predict overflowFeatures =
      .ok { prediction := F64.inf, confidence := F64.fin (85/100),
            model_version := "v1.0.0" } ∧
    F64.inf.isFinite = false := by
  have hfin : ∀ x ∈ overflowFeatures, x.isFinite = true := by
    intro x hx
    simp only [overflowFeatures, List.mem_cons, List.not_mem_nil, or_false] at hx
    rcases hx with rfl | rfl | rfl | rfl | rfl | rfl | rfl | rfl | rfl | rfl <;> rfl
  refine ⟨by decide, ?_, ?_, rfl⟩
  · intro x hx
    refine ⟨hfin x hx, ?_⟩
    simp only [overflowFeatures, List.mem_cons, List.not_mem_nil, or_false] at hx
    rcases hx with rfl | rfl | rfl | rfl | rfl | rfl | rfl | rfl | rfl | rfl <;>
      · simp only [F64.inRange, decide_eq_true_eq]
        norm_num [MAXF]
  · have hdot : F64.dot get_model.weights overflowFeatures = F64.inf := by
      norm_num [get_model, LinearRegressionModel.new, overflowFeatures, F64.dot,
        List.zipWith, List.foldl, F64.mul, F64.add, F64.ofRat, MAXF]
    rw [predict_of_valid get_model overflowFeatures (by decide) hfin, hdot]
    have hpred : F64.inf.add get_model.bias = F64.inf := rfl
    rw [hpred, calculate_confidence_nonfinite F64.inf rfl]

/-- C7: recording the outcome of one successful prediction increments exactly
the `("v1.0.0", "success")` counter cell by 1 and adds exactly one new
observation, equal to the returned confidence, to the `"v1.0.0"` confidence
histogram, leaving every other cell unchanged. -/
theorem C7_success_recording (features : List F64) (r : PredictionResponse)
    (m : MLMetrics) (h : get_model.predict features = .ok r) :
    r.model_version = "v1.0.0" ∧
    (record_ml_prediction r.model_version r.confidence true m).ml_predictions_total
        "v1.0.0" "success" = m.ml_predictions_total "v1.0.0" "success" + 1 ∧
    (∀ v s : String, ¬(v = "v1.0.0" ∧ s = "success") →
      (record_ml_prediction r.model_version r.confidence true m).ml_predictions_total
        v s = m.ml_predictions_total v s) ∧
    (record_ml_prediction r.model_version r.confidence true m).ml_prediction_confidence
        "v1.0.0" = r.confidence ::ₘ m.ml_prediction_confidence "v1.0.0" ∧
    (∀ v : String, v ≠ "v1.0.0" →
      (record_ml_prediction r.model_version r.confidence true m).ml_prediction_confidence
        v = m.ml_prediction_confidence v) := by
  have hv : r.model_version = "v1.0.0" := by rw [predict_ok_shape features r h]
  refine ⟨hv, ?_, ?_, ?_, ?_⟩
  · simp [record_ml_prediction, hv]
  · intro v s hvs
    simp only [record_ml_prediction, hv, if_true]
    rw [if_neg hvs]
  · simp [record_ml_prediction, hv]
  · intro v hvne
    simp only [record_ml_prediction, hv, if_true]
    rw [if_neg hvne]

/-- Witness for C7: one successful call on `[1,…,10]` against the all-zero
metrics state bumps the success counter and observes the confidence. -/
theorem C7_witness :
    (record_ml_prediction "v1.0.0" (F64.fin (95521/100000)) true
        initMLMetrics).ml_predictions_total "v1.0.0" "success"
      = initMLMetrics.ml_predictions_total "v1.0.0" "success" + 1 ∧
    (record_ml_prediction "v1.0.0" (F64.fin (95521/100000)) true
        initMLMetrics).ml_prediction_confidence "v1.0.0"
      = F64.fin (95521/100000) ::ₘ initMLMetrics.ml_prediction_confidence "v1.0.0" :=
  ⟨(C7_success_recording oneToTenF
      { prediction := F64.fin (1743/100), confidence := F64.fin (95521/100000),
        model_version := "v1.0.0" } initMLMetrics predict_oneToTen_eval).2.1,
   (C7_success_recording oneToTenF
      { prediction := F64.fin (1743/100), confidence := F64.fin (95521/100000),
        model_version := "v1.0.0" } initMLMetrics predict_oneToTen_eval).2.2.2.1⟩

/-- C8: after a failed prediction the endpoint records only the counter, at
`("v1.0.0", "error")`, and the confidence histogram is left completely
unchanged whatever confidence value is passed to the recorder. -/
theorem C8_failure_recording (features : List F64) (e : ModelError)
    (m : MLMetrics) (h : get_model.predict features = .error e) :
    predictEndpoint features m =
      (.error 400, record_ml_prediction "v1.0.0" (F64.fin 0) false m) ∧
    (record_ml_prediction "v1.0.0" (F64.fin 0) false m).ml_predictions_total
        "v1.0.0" "error" = m.ml_predictions_total "v1.0.0" "error" + 1 ∧
    (∀ v s : String, ¬(v = "v1.0.0" ∧ s = "error") →
      (record_ml_prediction "v1.0.0" (F64.fin 0) false m).ml_predictions_total
        v s = m.ml_predictions_total v s) ∧
    (∀ version : String, ∀ c : F64, ∀ m0 : MLMetrics,
      (record_ml_prediction version c false m0).ml_prediction_confidence
        = m0.ml_prediction_confidence) := by
  refine ⟨?_, ?_, ?_, ?_⟩
  · unfold predictEndpoint
    rw [h]
  · simp [record_ml_prediction]
  · intro v s hvs
    simp only [record_ml_prediction, Bool.false_eq_true, if_false]
    rw [if_neg hvs]
  · intro version c m0
    simp [record_ml_prediction]

/-- Witness for C8: the empty vector fails, records one error, and leaves the
confidence histogram untouched. -/
theorem C8_witness :
    predictEndpoint [] initMLMetrics =
      (.error 400, record_ml_prediction "v1.0.0" (F64.fin 0) false initMLMetrics) ∧
    (record_ml_prediction "v1.0.0" (F64.fin 0) false
        initMLMetrics).ml_predictions_total "v1.0.0" "error"
      = initMLMetrics.ml_predictions_total "v1.0.0" "error" + 1 :=
  ⟨(C8_failure_recording [] (.wrongFeatureCount 10 0) initMLMetrics rfl).1,
   (C8_failure_recording [] (.wrongFeatureCount 10 0) initMLMetrics rfl).2.1⟩

/-- C9: the instrumentation middleware returns the wrapped handler's response
unchanged, increments the `(method, path, status)` request counter cell by 1,
and records exactly one duration observation under `(method, path)`, leaving
all other cells untouched. -/
theorem C9_middleware_frame (next : HttpRequest → HttpResponse)
    (request : HttpRequest) (duration : ℚ) (m : HttpMetrics) :
    (metrics_middleware next request duration m).1 = next request ∧
    (metrics_middleware next request duration m).2.http_requests_total
        request.method request.path (toString (next request).status)
      = m.http_requests_total request.method request.path
          (toString (next request).status) + 1 ∧
    (∀ a b c : String, ¬(a = request.method ∧ b = request.path ∧
        c = toString (next request).status) →
      (metrics_middleware next request duration m).2.http_requests_total a b c
        = m.http_requests_total a b c) ∧
    (metrics_middleware next request duration m).2.http_request_duration_seconds
        request.method request.path
      = duration ::ₘ m.http_request_duration_seconds request.method request.path ∧
    (∀ a b : String, ¬(a = request.method ∧ b = request.path) →
      (metrics_middleware next request duration m).2.http_request_duration_seconds
        a b = m.http_request_duration_seconds a b) := by
  refine ⟨rfl, ?_, ?_, ?_, ?_⟩
  · simp [metrics_middleware, record_http_request]
  · intro a b c habc
    simp only [metrics_middleware, record_http_request]
    rw [if_neg habc]
  · simp [metrics_middleware, record_http_request]
  · intro a b hab
    simp only [metrics_middleware, record_http_request]
    rw [if_neg hab]

/-- Witness for C9: a constant 200-handler on `GET /health` with duration
0.01 against the all-zero state. -/
theorem C9_witness :
    (metrics_middleware (fun _ => { status := 200, body := "ok" })
        { method := "GET", path := "/health" } (1/100) initHttpMetrics).1
      = { status := 200, body := "ok" } ∧
    (metrics_middleware (fun _ => { status := 200, body := "ok" })
        { method := "GET", path := "/health" } (1/100)
        initHttpMetrics).2.http_request_duration_seconds "GET" "/health"
      = (1/100 : ℚ) ::ₘ initHttpMetrics.http_request_duration_seconds "GET" "/health" :=
  ⟨(C9_middleware_frame (fun _ => { status := 200, body := "ok" })
      { method := "GET", path := "/health" } (1/100) initHttpMetrics).1,
   (C9_middleware_frame (fun _ => { status := 200, body := "ok" })
      { method := "GET", path := "/health" } (1/100) initHttpMetrics).2.2.2.1⟩
